import Mathlib

/-!
Verification development for `singleroom_server.py`, a single-room
presentation synchronization server.  The Python source is shallowly
embedded below: the mutable `SessionController` object becomes an
explicit state record (`SCState`), websocket writes become an emitted
list of `(connection id, message)` pairs, and Python exceptions become
an explicit `Option PyErr` result component (a `some` error means the
exception propagated out of the modelled function, aborting the rest of
its body, exactly as a Python exception would).
-/

namespace SingleRoom

/-! ### Character classes used by `re.sub` in `get_safe_nick`

`re.sub(r"[^\w\s]", '', s)` keeps word characters and whitespace;
`re.sub(r"\s+", '', s)` then deletes every whitespace character. -/

def isWordChar (c : Char) : Bool :=
  c.isAlpha || c.isDigit || c == '_'

def isSpaceChar (c : Char) : Bool :=
  c == ' ' || c == '\t' || c == '\n' || c == '\r' || c == '\x0b' || c == '\x0c'

/-- The two `re.sub` calls at the top of `SessionController.get_safe_nick`:
first drop every character that is neither a word character nor whitespace,
then drop all whitespace. -/
def sanitize (s : String) : String :=
  let step1 := String.mk (s.toList.filter (fun c => isWordChar c || isSpaceChar c))
  String.mk (step1.toList.filter (fun c => !(isSpaceChar c)))

/-- The `while safe_nick in self.nicks:` loop of `get_safe_nick`, with an
explicit fuel argument (the Python loop terminates because every iteration
strictly lengthens the candidate and the taken set is finite; fuel
`nicks.length + 1` is always sufficient, see `probe_loop_not_mem`).
Each collision appends `str(i)` to the PREVIOUS candidate, i.e. the probe
sequence is cumulative: `base`, `base ++ "1"`, `base ++ "1" ++ "2"`, ... -/
def probe_loop (nicks : List String) : Nat → String → Nat → String
  | 0, s, _ => s
  | fuel+1, s, i => if s ∈ nicks then probe_loop nicks fuel (s ++ Nat.repr i) (i + 1) else s

/-- `SessionController.get_safe_nick`, with `self.nicks` passed explicitly. -/
def get_safe_nick (nicks : List String) (initial_nick : String) : String :=
  probe_loop nicks (nicks.length + 1) (sanitize initial_nick) 1

/-- The cumulative candidate sequence produced by the probing loop:
`candSeq base 0 = base` and `candSeq base (k+1) = candSeq base k ++ str (k+1)`. -/
def candSeq (base : String) : Nat → String
  | 0 => base
  | k+1 => candSeq base k ++ Nat.repr (k + 1)

/-! ### State, connections and results -/

/-- Python exceptions that can escape the modelled functions. -/
inductive PyErr where
  | keyError
  | attributeError
  | indexError
  | writeError
  | valueError
deriving DecidableEq

/-- The per-connection mutable fields of `ClientWSConnection` relevant to the
coordinator: the `_is_instructor` flag and whether the transport is closed
(a `write_message` on a closed transport raises). -/
structure ConnInfo where
  is_instructor : Bool
  closed : Bool
deriving DecidableEq

/-- The `client_obj` dictionary built in `SessionController.add_client`:
`{ "nick": ..., "connection": ..., "instructor": ... }`.  The connection is
identified by a numeric id into the connection table. -/
structure Client where
  nick : String
  connId : Nat
  instructor : Bool
deriving DecidableEq

/-- The mutable fields of `SessionController`, plus the table of live
connections (owned by the network layer in the source). `clients` models the
insertion-ordered dict `self.clients`; `nicks` models the set `self.nicks`
(kept as a list, membership is what matters). -/
structure SCState where
  clients : List Client
  nicks : List String
  conns : List (Nat × ConnInfo)
  instructor_ref : Option Client
  presentation_started : Bool
  follow_instructor : Bool
  lock_student_nav : Bool
  latest_instructor_state : String
deriving DecidableEq

/-- `SessionController.__init__` together with an empty connection table. -/
def initState : SCState :=
  { clients := []
    nicks := []
    conns := []
    instructor_ref := none
    presentation_started := false
    follow_instructor := true
    lock_student_nav := true
    latest_instructor_state := "" }

def lookupConn (conns : List (Nat × ConnInfo)) (cid : Nat) : Option ConnInfo :=
  (conns.find? (fun p => p.1 == cid)).map Prod.snd

def updateConn (conns : List (Nat × ConnInfo)) (cid : Nat) (f : ConnInfo → ConnInfo) :
    List (Nat × ConnInfo) :=
  conns.map (fun p => if p.1 == cid then (p.1, f p.2) else p)

/-- Whether the connection `cid` exists and is open (a write to it succeeds). -/
def conn_open (s : SCState) (cid : Nat) : Bool :=
  match lookupConn s.conns cid with
  | none => false
  | some ci => !ci.closed

/-- The `_is_instructor` flag of connection `cid` (false if absent). -/
def conn_is_instructor (s : SCState) (cid : Nat) : Bool :=
  match lookupConn s.conns cid with
  | none => false
  | some ci => ci.is_instructor

/-- Result of one modelled operation: the state after it, the messages written
(in write order), and the exception that escaped it, if any. -/
structure OpResult where
  state : SCState
  sends : List (Nat × String)
  err : Option PyErr
deriving DecidableEq

/-- One `conn.write_message(msg)`: fails when the connection is gone or its
transport is closed (Tornado raises in both cases); nothing is delivered then. -/
def write_message (s : SCState) (cid : Nat) (msg : String) :
    Except PyErr (Nat × String) :=
  match lookupConn s.conns cid with
  | none => Except.error PyErr.attributeError
  | some ci => if ci.closed then Except.error PyErr.writeError else Except.ok (cid, msg)

/-- The `for nick in self.clients: ... write_message(msg)` loops shared by the
broadcast methods.  With `only_participants := true` it models the loops that
skip connections whose `_is_instructor` flag is set
(`broadcast_reveal_state`, `broadcast_lock_student_nav`).  A raise aborts the
loop: later clients receive nothing and the error propagates. -/
def sendLoop (s : SCState) (only_participants : Bool) (targets : List Client)
    (msg : String) : List (Nat × String) × Option PyErr :=
  match targets with
  | [] => ([], none)
  | c :: rest =>
    match lookupConn s.conns c.connId with
    | none => ([], some PyErr.attributeError)
    | some ci =>
      if only_participants && ci.is_instructor then sendLoop s only_participants rest msg
      else if ci.closed then ([], some PyErr.writeError)
      else
        let r := sendLoop s only_participants rest msg
        ((c.connId, msg) :: r.1, r.2)

/-! ### SessionController broadcast methods -/

/-- The `nicklist|<ul>...</ul>` message built in `broadcast_nicklist`
(iteration order over the nick set is modelled as list order). -/
def nicklist_msg (nicks : List String) : String :=
  "nicklist|<ul>" ++ String.join (nicks.map (fun n => "<li>" ++ n ++ "</li>")) ++ "</ul>"

/-- `SessionController.broadcast_nicklist`: writes the roster message to every
client; no state is mutated; a failed write propagates. -/
def broadcast_nicklist (s : SCState) : OpResult :=
  let r := sendLoop s false s.clients (nicklist_msg s.nicks)
  ⟨s, r.1, r.2⟩

def pyBool (b : Bool) : String :=
  if b then "true" else "false"

/-- `SessionController.generate_start_presentation_msg`: the
`load_presentation|{json}` message. -/
def generate_start_presentation_msg (s : SCState) : String :=
  "load_presentation|\x7b\"source\": \"/static/presentations/pres1/index.html\", \"follow_instructor\": "
    ++ pyBool s.follow_instructor
    ++ ", \"lock_student_nav\": " ++ pyBool s.lock_student_nav ++ "\x7d"

/-- `SessionController.send_start_presentation` (unicast to one connection). -/
def send_start_presentation (s : SCState) (cid : Nat) : OpResult :=
  match write_message s cid (generate_start_presentation_msg s) with
  | Except.error e => ⟨s, [], some e⟩
  | Except.ok snd => ⟨s, [snd], none⟩

/-- `SessionController.broadcast_start_presentation`: writes the message to
every client, then sets `_presentation_started = True`.  If a write raises,
the flag assignment after the loop is never executed. -/
def broadcast_start_presentation (s : SCState) : OpResult :=
  let r := sendLoop s false s.clients (generate_start_presentation_msg s)
  match r.2 with
  | some e => ⟨s, r.1, some e⟩
  | none => ⟨{ s with presentation_started := true }, r.1, none⟩

/-- `SessionController.broadcast_finish_presentation`: writes
`finish_presentation` (no payload) to every client, then unconditionally
resets `_presentation_started`, `_follow_instructor`, `_lock_student_nav`. -/
def broadcast_finish_presentation (s : SCState) : OpResult :=
  let r := sendLoop s false s.clients "finish_presentation"
  match r.2 with
  | some e => ⟨s, r.1, some e⟩
  | none =>
    ⟨{ s with presentation_started := false, follow_instructor := true,
              lock_student_nav := true }, r.1, none⟩

/-- `SessionController.broadcast_reveal_state`: writes
`instructor_state|<txt>` to every client whose connection is not flagged as
the instructor connection. -/
def broadcast_reveal_state (s : SCState) (state_txt : String) : OpResult :=
  let r := sendLoop s true s.clients ("instructor_state|" ++ state_txt)
  ⟨s, r.1, r.2⟩

/-- `SessionController.broadcast_lock_student_nav`. -/
def broadcast_lock_student_nav (s : SCState) (lockstate : Bool) : OpResult :=
  let r := sendLoop s true s.clients ("lock_student_nav|" ++ pyBool lockstate)
  ⟨s, r.1, r.2⟩

/-! ### Registration and removal -/

/-- `SessionController.add_client`: compute the safe nick, make the first
client the instructor (also flipping its connection flag), insert into the
dict and the nick set, then broadcast the roster.  All mutations happen
before the broadcast, so they persist even if a roster write raises. -/
def add_client (s : SCState) (initial_nick : String) (cid : Nat) : OpResult × String :=
  let final_nick := get_safe_nick s.nicks initial_nick
  let first := s.clients.length == 0
  let client_obj : Client := ⟨final_nick, cid, first⟩
  let s1 : SCState :=
    { s with
      clients := s.clients ++ [client_obj]
      nicks := s.nicks ++ [final_nick]
      conns := if first then updateConn s.conns cid (fun ci => { ci with is_instructor := true })
               else s.conns
      instructor_ref := if first then some client_obj else s.instructor_ref }
  (broadcast_nicklist s1, final_nick)

/-- `SessionController.remove_client`: `self.clients[nick]` raises `KeyError`
when the nick is absent (before anything is mutated or closed); otherwise the
handle is closed, the entries are removed, and the roster is broadcast. -/
def remove_client (s : SCState) (nick : String) : OpResult :=
  match s.clients.find? (fun c => c.nick == nick) with
  | none => ⟨s, [], some PyErr.keyError⟩
  | some c =>
    let s1 : SCState :=
      { s with
        conns := updateConn s.conns c.connId (fun ci => { ci with closed := true })
        clients := s.clients.eraseP (fun cl => cl.nick == nick)
        nicks := s.nicks.erase nick }
    broadcast_nicklist s1

/-- Modelled from the spec: the external `render_file` collaborator returns an
opaque role-specific HTML fragment (the templates are not part of src/). -/
def panel_msg (is_instr : Bool) (lock : Bool) : String :=
  if is_instr then "panel_content|<instructor_panel>"
  else "panel_content|<participant_panel " ++ pyBool lock ++ ">"

/-- The writes performed by `ClientWSConnection.open` after `add_client`
returned: the `panel_content` unicast and, when a presentation is already
running, the catch-up `load_presentation` unicast. -/
def ws_open_sends (s1 : SCState) (cid : Nat) : List (Nat × String) × Option PyErr :=
  match write_message s1 cid (panel_msg (conn_is_instructor s1 cid) s1.lock_student_nav) with
  | Except.error e => ([], some e)
  | Except.ok snd =>
    if s1.presentation_started then
      match write_message s1 cid (generate_start_presentation_msg s1) with
      | Except.error e => ([snd], some e)
      | Except.ok snd2 => ([snd, snd2], none)
    else ([snd], none)

/-- `ClientWSConnection.open`: the network layer registers the fresh
connection (flags `false`/open), then `add_client` runs, then the panel and
catch-up writes.  An exception inside `add_client` aborts the rest. -/
def ws_open (s : SCState) (requested : String) (cid : Nat) : OpResult :=
  let s0 : SCState := { s with conns := s.conns ++ [(cid, ⟨false, false⟩)] }
  let a := (add_client s0 requested cid).1
  match a.err with
  | some e => ⟨a.state, a.sends, some e⟩
  | none =>
    let tail := ws_open_sends a.state cid
    ⟨a.state, a.sends ++ tail.1, tail.2⟩

/-! ### Message handlers (`ClientWSConnection.handle_*`) -/

/-- Modelled from the spec: `json.loads` restricted to the JSON boolean
payloads this protocol sends on the two lock commands. -/
def parse_json_bool (t : String) : Except PyErr Bool :=
  if t == "true" then Except.ok true
  else if t == "false" then Except.ok false
  else Except.error PyErr.valueError

def handle_start_presentation (is_instr : Bool) (_cid : Nat) (s : SCState)
    (_msg_parts : List String) : OpResult :=
  if !is_instr then ⟨s, [], none⟩
  else broadcast_start_presentation s

/-- `handle_slide_changed`: note that `msg_parts[1]` is read BEFORE the
`_is_instructor` check, so a missing payload raises for every sender role. -/
def handle_slide_changed (is_instr : Bool) (_cid : Nat) (s : SCState)
    (msg_parts : List String) : OpResult :=
  match msg_parts.get? 1 with
  | none => ⟨s, [], some PyErr.indexError⟩
  | some state_txt =>
    if is_instr then
      let s1 := { s with latest_instructor_state := state_txt }
      if s1.follow_instructor then broadcast_reveal_state s1 state_txt
      else ⟨s1, [], none⟩
    else ⟨s, [], none⟩

def handle_lock_follow_instructor (is_instr : Bool) (_cid : Nat) (s : SCState)
    (msg_parts : List String) : OpResult :=
  if !is_instr then ⟨s, [], none⟩
  else match msg_parts.get? 1 with
    | none => ⟨s, [], some PyErr.indexError⟩
    | some t =>
      match parse_json_bool t with
      | Except.error e => ⟨s, [], some e⟩
      | Except.ok lock => ⟨{ s with follow_instructor := lock }, [], none⟩

def handle_lock_student_nav (is_instr : Bool) (_cid : Nat) (s : SCState)
    (msg_parts : List String) : OpResult :=
  if !is_instr then ⟨s, [], none⟩
  else match msg_parts.get? 1 with
    | none => ⟨s, [], some PyErr.indexError⟩
    | some t =>
      match parse_json_bool t with
      | Except.error e => ⟨s, [], some e⟩
      | Except.ok lock => broadcast_lock_student_nav { s with lock_student_nav := lock } lock

def handle_sync_to_instructor (is_instr : Bool) (cid : Nat) (s : SCState)
    (_msg_parts : List String) : OpResult :=
  let state_txt := s.latest_instructor_state
  if is_instr then broadcast_reveal_state s state_txt
  else
    match write_message s cid ("instructor_state|" ++ state_txt) with
    | Except.error e => ⟨s, [], some e⟩
    | Except.ok snd => ⟨s, [snd], none⟩

def handle_finish_presentation (is_instr : Bool) (_cid : Nat) (s : SCState)
    (_msg_parts : List String) : OpResult :=
  if !is_instr then ⟨s, [], none⟩
  else broadcast_finish_presentation s

/-! ### The dispatcher (`ClientWSConnection.on_message`) -/

/-- `message.split('|')` on the character level (Python `str.split` with an
explicit separator: no collapsing, an empty string yields `[""]`). -/
def split_chars (sep : Char) : List Char → List (List Char)
  | [] => [[]]
  | c :: rest =>
    let r := split_chars sep rest
    if c == sep then [] :: r
    else
      match r with
      | [] => [[c]]
      | g :: gs => (c :: g) :: gs

def split_on_bar (msg : String) : List String :=
  (split_chars '|' msg.toList).map String.mk

/-- `ClientWSConnection.on_message`: split the line, then dispatch on
`'handle_' + msg_parts[0]` via `getattr`.  `getattr` is called WITHOUT a
default, so an unknown command name raises `AttributeError` (the
`if (func and callable(func))` guard in the source is unreachable dead
code for the missing-handler case). -/
def on_message (is_instr : Bool) (cid : Nat) (s : SCState) (message : String) : OpResult :=
  let msg_parts := split_on_bar message
  match msg_parts.headD "" with
  | "start_presentation" => handle_start_presentation is_instr cid s msg_parts
  | "slide_changed" => handle_slide_changed is_instr cid s msg_parts
  | "lock_follow_instructor" => handle_lock_follow_instructor is_instr cid s msg_parts
  | "lock_student_nav" => handle_lock_student_nav is_instr cid s msg_parts
  | "sync_to_instructor" => handle_sync_to_instructor is_instr cid s msg_parts
  | "finish_presentation" => handle_finish_presentation is_instr cid s msg_parts
  | _ => ⟨s, [], some PyErr.attributeError⟩

/-! ### Reachable states

The registry is mutated only by `ClientWSConnection.open` (registration) and
`ClientWSConnection.on_close` / `remove_client` (unregistration); the message
handlers never touch `clients` or `nicks`. -/

inductive Reachable : SCState → Prop where
  | init : Reachable initState
  | connect (s : SCState) (nick : String) (cid : Nat) :
      Reachable s → Reachable (ws_open s nick cid).state
  | disconnect (s : SCState) (nick : String) :
      Reachable s → Reachable (remove_client s nick).state

/-- All registered clients have a live, open connection. -/
def conns_ok (s : SCState) : Prop :=
  ∀ c ∈ s.clients, conn_open s c.connId = true

/-- The registry invariant: the nick set mirrors the registry keys, the keys
are pairwise distinct, and at most one registered client carries the
instructor role. -/
def RegInv (s : SCState) : Prop :=
  s.nicks = s.clients.map Client.nick ∧ s.nicks.Nodup ∧
    (s.clients.filter (fun c => c.instructor)).length ≤ 1

/-- A concrete two-client state (instructor Ann on connection 0, participant
Bob on connection 1, both open) used to exercise the theorems; the policy
flags are deliberately non-default. -/
def demoState : SCState :=
  { clients := [⟨"Ann", 0, true⟩, ⟨"Bob", 1, false⟩]
    nicks := ["Ann", "Bob"]
    conns := [(0, ⟨true, false⟩), (1, ⟨false, false⟩)]
    instructor_ref := some ⟨"Ann", 0, true⟩
    presentation_started := true
    follow_instructor := false
    lock_student_nav := false
    latest_instructor_state := "3" }

/-- A concrete three-client state whose middle client (Bob, connection 1)
sits on an already-closed connection while Ann (0) and Cec (2) are open:
a broadcast reaches Ann, raises at Bob, and never reaches Cec. -/
def mixedState : SCState :=
  { clients := [⟨"Ann", 0, true⟩, ⟨"Bob", 1, false⟩, ⟨"Cec", 2, false⟩]
    nicks := ["Ann", "Bob", "Cec"]
    conns := [(0, ⟨true, false⟩), (1, ⟨false, true⟩), (2, ⟨false, false⟩)]
    instructor_ref := some ⟨"Ann", 0, true⟩
    presentation_started := false
    follow_instructor := true
    lock_student_nav := true
    latest_instructor_state := "" }

/-! ### Facts about the probing loop of `get_safe_nick` -/

lemma toDigitsCore_length_pos :
    ∀ (fuel b n : Nat) (ds : List Char), 0 < fuel →
      ds.length + 1 ≤ (Nat.toDigitsCore b fuel n ds).length := by
  intro fuel
  induction fuel with
  | zero => intro b n ds h; omega
  | succ f ih =>
    intro b n ds _
    simp only [Nat.toDigitsCore]
    if hx : n / b = 0 then
      simp [hx]
    else
      simp only [hx, if_false]
      cases f with
      | zero => simp [Nat.toDigitsCore]
      | succ g =>
        have h2 := ih b (n / b) (Nat.digitChar (n % b) :: ds) (Nat.succ_pos g)
        simp only [List.length_cons] at h2
        omega

/-- `str(i)` is never the empty string. -/
lemma repr_length_pos (n : Nat) : 0 < (Nat.repr n).length := by
  have h := toDigitsCore_length_pos (n + 1) 10 n [] (Nat.succ_pos n)
  have he : (Nat.repr n).length = (Nat.toDigitsCore 10 (n + 1) n []).length := rfl
  simp only [List.length_nil] at h
  omega

lemma candSeq_length_lt (base : String) (k : Nat) :
    (candSeq base k).length < (candSeq base (k + 1)).length := by
  have h := repr_length_pos (k + 1)
  simp only [candSeq, String.length_append]
  omega

lemma candSeq_length_strictMono (base : String) :
    StrictMono (fun k => (candSeq base k).length) :=
  strictMono_nat_of_lt_succ (candSeq_length_lt base)

lemma candSeq_injective (base : String) : Function.Injective (candSeq base) := by
  intro j m h
  exact (candSeq_length_strictMono base).injective (congrArg String.length h)

lemma countP_lt_countP {α : Type} (l : List α) (p q : α → Bool)
    (hpq : ∀ x, q x = true → p x = true) (a : α) (ha : a ∈ l)
    (hpa : p a = true) (hqa : q a = false) : l.countP q < l.countP p := by
  induction l with
  | nil => cases ha
  | cons x t ih =>
    rw [List.countP_cons, List.countP_cons]
    rcases List.mem_cons.mp ha with rfl | hat
    · rw [hpa, hqa]
      have hmono : t.countP q ≤ t.countP p :=
        List.countP_mono_left (fun y _ hy => hpq y hy)
      simp only [if_true]
      simp only [show (false = true) = False by simp, if_false]
      omega
    · have hrec := ih hat
      by_cases hqx : q x = true
      · rw [hqx, hpq x hqx]; omega
      · rw [if_neg hqx]
        split <;> omega

lemma probe_loop_not_mem (nicks : List String) :
    ∀ (fuel : Nat) (s : String) (i : Nat),
      nicks.countP (fun n => decide (s.length ≤ n.length)) < fuel →
      probe_loop nicks fuel s i ∉ nicks := by
  intro fuel
  induction fuel with
  | zero => intro s i h; omega
  | succ f ih =>
    intro s i h
    simp only [probe_loop]
    split
    case isTrue hmem =>
      apply ih
      have hlen : s.length < (s ++ Nat.repr i).length := by
        have := repr_length_pos i
        simp only [String.length_append]
        omega
      have hlt : nicks.countP (fun n => decide ((s ++ Nat.repr i).length ≤ n.length)) <
          nicks.countP (fun n => decide (s.length ≤ n.length)) := by
        refine countP_lt_countP nicks _ _ ?_ s hmem ?_ ?_
        · intro x hx
          simp only [decide_eq_true_eq] at hx ⊢
          omega
        · simp
        · simp only [decide_eq_false_iff_not]
          omega
      omega
    case isFalse hmem => exact hmem

/-- The nick returned by `get_safe_nick` is never already taken. -/
lemma get_safe_nick_not_mem (nicks : List String) (initial_nick : String) :
    get_safe_nick nicks initial_nick ∉ nicks := by
  apply probe_loop_not_mem
  have := List.countP_le_length
    (p := fun n => decide ((sanitize initial_nick).length ≤ n.length)) (l := nicks)
  omega

lemma probe_loop_eq_candSeq (nicks : List String) (base : String) :
    ∀ (fuel j k : Nat), j ≤ k → k - j ≤ fuel →
      (∀ m, j ≤ m → m < k → candSeq base m ∈ nicks) →
      candSeq base k ∉ nicks →
      probe_loop nicks fuel (candSeq base j) (j + 1) = candSeq base k := by
  intro fuel
  induction fuel with
  | zero =>
    intro j k hjk hfuel _ _
    have : j = k := by omega
    subst this
    rfl
  | succ f ih =>
    intro j k hjk hfuel hmem hnot
    rcases Nat.lt_or_ge j k with hlt | hge
    · have hj : candSeq base j ∈ nicks := hmem j le_rfl hlt
      simp only [probe_loop, if_pos hj]
      exact ih (j + 1) k hlt (by omega) (fun m hm1 hm2 => hmem m (by omega) hm2) hnot
    · have : j = k := le_antisymm hjk hge
      subst this
      simp only [probe_loop, if_neg hnot]

/-- If the first `k` cumulative candidates are all taken, the taken set has at
least `k` entries (the candidates are pairwise distinct). -/
lemma candSeq_prefix_le_length (nicks : List String) (base : String) (k : Nat)
    (hmem : ∀ m, m < k → candSeq base m ∈ nicks) : k ≤ nicks.length := by
  have hnd : ((List.range k).map (candSeq base)).Nodup :=
    (List.nodup_range k).map (candSeq_injective base)
  have hsub : ((List.range k).map (candSeq base)).toFinset ⊆ nicks.toFinset := by
    intro x hx
    simp only [List.mem_toFinset, List.mem_map, List.mem_range] at hx ⊢
    obtain ⟨m, hm, rfl⟩ := hx
    exact hmem m hm
  have h1 : ((List.range k).map (candSeq base)).toFinset.card = k := by
    rw [List.toFinset_card_of_nodup hnd]
    simp
  have h2 := Finset.card_le_card hsub
  have h3 := List.toFinset_card_le nicks
  omega

/-- Claim C1, counterexample: with taken set containing Bob and Bob1, the code
allocates Bob12 (the collision counter is appended to the PREVIOUS candidate,
not to the base), not Bob2 as the claim states. -/
theorem c1_counterexample :
    get_safe_nick ["Bob", "Bob1"] "Bob" = "Bob12" ∧
    get_safe_nick ["Bob", "Bob1"] "Bob" ≠ "Bob2" := by
  constructor <;> decide

/-- Claim C1 (amended): allocation sanitizes the request to a base candidate
and then probes the CUMULATIVE sequence base, base+str(1),
(base+str(1))+str(2), ... (each collision appends the counter to the previous
candidate), returning the first member of that sequence not in the taken set;
e.g. with taken containing Bob and Bob1, allocating Bob returns Bob12. -/
theorem c1_amended (nicks : List String) (nick : String) (k : Nat)
    (hmem : ∀ m, m < k → candSeq (sanitize nick) m ∈ nicks)
    (hfree : candSeq (sanitize nick) k ∉ nicks) :
    get_safe_nick nicks nick = candSeq (sanitize nick) k := by
  have hk : k ≤ nicks.length := candSeq_prefix_le_length nicks (sanitize nick) k hmem
  have h := probe_loop_eq_candSeq nicks (sanitize nick) (nicks.length + 1) 0 k
    (Nat.zero_le k) (by omega) (fun m _ hm2 => hmem m hm2) hfree
  exact h

theorem c1_amended_witness :
    get_safe_nick ["Bob", "Bob1"] "Bob" = candSeq (sanitize "Bob") 2 :=
  c1_amended ["Bob", "Bob1"] "Bob" 2 (by decide) (by decide)

/-! ### Dispatcher and handler behaviour -/

/-- Claim C2: contrary to the claim, an inbound message with an unknown
command name is NOT ignored: `getattr(self, 'handle_bogus')` is called
without a default and raises AttributeError, which escapes the dispatcher
(the state is untouched and nothing is sent, but the exception propagates). -/
theorem c2_bug (b : Bool) (cid : Nat) (s : SCState) :
    on_message b cid s "bogus|x" = ⟨s, [], some PyErr.attributeError⟩ := rfl

/-- Claim C3, counterexample: unregistering a nick that is not present is not
a silent no-op; the dict lookup `self.clients[nick]` raises KeyError. -/
theorem c3_counterexample :
    (remove_client initState "Bob").err = some PyErr.keyError := by decide

/-- Claim C3 (amended): for every nick not present in the registry,
`remove_client` raises KeyError from the registry lookup before anything else
happens: the registry, the nick set, the room state and the connection table
are unchanged, and no client handle is closed or written to. -/
theorem c3_amended (s : SCState) (nick : String)
    (h : ∀ c ∈ s.clients, c.nick ≠ nick) :
    remove_client s nick = ⟨s, [], some PyErr.keyError⟩ := by
  unfold remove_client
  have hf : s.clients.find? (fun c => c.nick == nick) = none := by
    rw [List.find?_eq_none]
    intro c hc
    simpa using h c hc
  rw [hf]

theorem c3_amended_witness :
    remove_client demoState "Zed" = ⟨demoState, [], some PyErr.keyError⟩ :=
  c3_amended demoState "Zed" (by decide)

/-- Claim C4: every Instructor-only operation (start_presentation, the
slide_changed state storage, lock_follow_instructor, lock_student_nav,
finish_presentation) invoked by a Participant-role connection leaves the
whole state unchanged and sends nothing to anybody (slide_changed may still
raise on a missing payload, but even then nothing changes and nothing is
sent). -/
theorem c4_participant_noop (cid : Nat) (s : SCState) (msg_parts : List String) :
    handle_start_presentation false cid s msg_parts = ⟨s, [], none⟩ ∧
    (handle_slide_changed false cid s msg_parts).state = s ∧
    (handle_slide_changed false cid s msg_parts).sends = [] ∧
    handle_lock_follow_instructor false cid s msg_parts = ⟨s, [], none⟩ ∧
    handle_lock_student_nav false cid s msg_parts = ⟨s, [], none⟩ ∧
    handle_finish_presentation false cid s msg_parts = ⟨s, [], none⟩ := by
  have hsc : (handle_slide_changed false cid s msg_parts).state = s ∧
      (handle_slide_changed false cid s msg_parts).sends = [] := by
    unfold handle_slide_changed
    cases msg_parts.get? 1 <;> simp
  exact ⟨rfl, hsc.1, hsc.2, rfl, rfl, rfl⟩

/-- Claim C10: a slide_changed message with no payload field makes the
handler read `msg_parts[1]` out of bounds, and this read precedes the role
check, so the IndexError is raised for every sender role (Participant
included); the state is unchanged and nothing is sent. -/
theorem c10_slide_changed_oob (b : Bool) (cid : Nat) (s : SCState) :
    on_message b cid s "slide_changed" = ⟨s, [], some PyErr.indexError⟩ := rfl

/-! ### Broadcast fan-out lemmas -/

/-- An unfiltered broadcast over clients whose connections are all open
delivers the message to every client, in registry order, with no error. -/
lemma sendLoop_all_ok (s : SCState) (msg : String) :
    ∀ (targets : List Client), (∀ c ∈ targets, conn_open s c.connId = true) →
      sendLoop s false targets msg = (targets.map (fun c => (c.connId, msg)), none) := by
  intro targets
  induction targets with
  | nil => intro _; rfl
  | cons c rest ih =>
    intro h
    have hc := h c (List.mem_cons_self c rest)
    unfold conn_open at hc
    cases hl : lookupConn s.conns c.connId with
    | none => rw [hl] at hc; cases hc
    | some ci =>
      rw [hl] at hc
      simp only [Bool.not_eq_true'] at hc
      simp only [sendLoop, hl, Bool.false_and, hc, if_neg, if_false]
      rw [ih (fun x hx => h x (List.mem_cons_of_mem c hx))]
      simp

/-- An instructor-filtered broadcast over clients whose connections are all
open delivers the message exactly to the clients whose connection is not
flagged as the instructor connection, in registry order, with no error. -/
lemma sendLoop_participants_ok (s : SCState) (msg : String) :
    ∀ (targets : List Client), (∀ c ∈ targets, conn_open s c.connId = true) →
      sendLoop s true targets msg =
        ((targets.filter (fun c => !(conn_is_instructor s c.connId))).map
          (fun c => (c.connId, msg)), none) := by
  intro targets
  induction targets with
  | nil => intro _; rfl
  | cons c rest ih =>
    intro h
    have hc := h c (List.mem_cons_self c rest)
    unfold conn_open at hc
    cases hl : lookupConn s.conns c.connId with
    | none => rw [hl] at hc; cases hc
    | some ci =>
      rw [hl] at hc
      simp only [Bool.not_eq_true'] at hc
      have hflag : conn_is_instructor s c.connId = ci.is_instructor := by
        unfold conn_is_instructor
        rw [hl]
      cases hinstr : ci.is_instructor with
      | true =>
        simp only [sendLoop, hl, hinstr, Bool.true_and, if_true, List.filter_cons,
          hflag, Bool.not_true]
        simp only [show (false = true) = False by simp, if_false]
        exact ih (fun x hx => h x (List.mem_cons_of_mem c hx))
      | false =>
        simp only [sendLoop, hl, hinstr, Bool.and_false, hc, if_neg, if_false,
          List.filter_cons, hflag, Bool.not_false, if_true]
        rw [ih (fun x hx => h x (List.mem_cons_of_mem c hx))]
        simp

/-- When the fan-out list splits into an all-open prefix, a dead (or missing)
client, and an arbitrary tail, the unfiltered broadcast loop delivers the
message exactly to the prefix, raises at the dead client, and never reaches
the tail. -/
lemma sendLoop_stops_at_bad (s : SCState) (msg : String) :
    ∀ (pre : List Client) (bad : Client) (post : List Client),
      (∀ c ∈ pre, conn_open s c.connId = true) →
      conn_open s bad.connId = false →
      (sendLoop s false (pre ++ bad :: post) msg).1 =
        pre.map (fun c => (c.connId, msg)) ∧
      (sendLoop s false (pre ++ bad :: post) msg).2 ≠ none := by
  intro pre
  induction pre with
  | nil =>
    intro bad post _ hbad
    unfold conn_open at hbad
    cases hl : lookupConn s.conns bad.connId with
    | none => simp [sendLoop, hl]
    | some ci =>
      rw [hl] at hbad
      simp only [Bool.not_eq_false'] at hbad
      simp [sendLoop, hl, hbad]
  | cons c pre' ih =>
    intro bad post hpre hbad
    have hc := hpre c (List.mem_cons_self c pre')
    unfold conn_open at hc
    cases hl : lookupConn s.conns c.connId with
    | none => rw [hl] at hc; cases hc
    | some ci =>
      rw [hl] at hc
      simp only [Bool.not_eq_true'] at hc
      obtain ⟨h1p, h2p⟩ := ih bad post (fun x hx => hpre x (List.mem_cons_of_mem c hx)) hbad
      cases hr : (sendLoop s false (pre' ++ bad :: post) msg).2 with
      | none => exact absurd hr h2p
      | some e =>
        have hpair : sendLoop s false (pre' ++ bad :: post) msg =
            (List.map (fun cl => (cl.connId, msg)) pre', some e) := by
          rw [← h1p, ← hr]
        simp only [List.cons_append, sendLoop, hl, Bool.false_and, hc, if_neg, if_false,
          hpair]
        simp
        exact ⟨h1p, h2p⟩

/-- Claim C7: whenever finish_presentation comes from the Instructor (all
peers connected), the presentation phase returns to idle and both policy
flags are reset to true regardless of their prior values, and the bare
`finish_presentation` command is written to every registered client,
the Instructor included. -/
theorem c7_finish_resets (s : SCState) (cid : Nat) (msg_parts : List String)
    (h : conns_ok s) :
    handle_finish_presentation true cid s msg_parts =
      ⟨{ s with
          presentation_started := false
          follow_instructor := true
          lock_student_nav := true },
       s.clients.map (fun c => (c.connId, "finish_presentation")), none⟩ := by
  unfold handle_finish_presentation broadcast_finish_presentation
  rw [sendLoop_all_ok s "finish_presentation" s.clients h]
  rfl

theorem c7_finish_resets_witness :
    handle_finish_presentation true 0 demoState [] =
      ⟨{ demoState with
          presentation_started := false
          follow_instructor := true
          lock_student_nav := true },
       demoState.clients.map (fun c => (c.connId, "finish_presentation")), none⟩ :=
  c7_finish_resets demoState 0 [] (by unfold conns_ok; decide)

/-- Claim C8: sync_to_instructor is asymmetric in the sender role (all peers
connected).  From a Participant connection, exactly the sender receives one
`instructor_state` unicast carrying the latest instructor state, nothing else
is sent and nothing changes; from the Instructor connection, exactly the
clients whose connection is not the instructor connection receive it (the
Instructor receives nothing). -/
theorem c8_sync_asymmetric (s : SCState) (cid : Nat) (msg_parts : List String)
    (h : conns_ok s) (hcid : conn_open s cid = true) :
    handle_sync_to_instructor false cid s msg_parts =
      ⟨s, [(cid, "instructor_state|" ++ s.latest_instructor_state)], none⟩ ∧
    handle_sync_to_instructor true cid s msg_parts =
      ⟨s, (s.clients.filter (fun c => !(conn_is_instructor s c.connId))).map
            (fun c => (c.connId, "instructor_state|" ++ s.latest_instructor_state)),
       none⟩ := by
  constructor
  · unfold handle_sync_to_instructor write_message
    unfold conn_open at hcid
    cases hl : lookupConn s.conns cid with
    | none => rw [hl] at hcid; cases hcid
    | some ci =>
      rw [hl] at hcid
      simp only [Bool.not_eq_true'] at hcid
      simp [hl, hcid]
  · show (⟨s,
      (sendLoop s true s.clients ("instructor_state|" ++ s.latest_instructor_state)).1,
      (sendLoop s true s.clients ("instructor_state|" ++ s.latest_instructor_state)).2⟩
        : OpResult) = _
    rw [sendLoop_participants_ok s _ s.clients h]

theorem c8_sync_asymmetric_witness :
    handle_sync_to_instructor false 1 demoState [] =
      ⟨demoState, [(1, "instructor_state|" ++ demoState.latest_instructor_state)],
       none⟩ ∧
    handle_sync_to_instructor true 1 demoState [] =
      ⟨demoState,
       (demoState.clients.filter (fun c => !(conn_is_instructor demoState c.connId))).map
         (fun c => (c.connId, "instructor_state|" ++ demoState.latest_instructor_state)),
       none⟩ :=
  c8_sync_asymmetric demoState 1 [] (by unfold conns_ok; decide) (by decide)

/-- Claim C9, counterexample: writing the roster (or the start command) to a
registry whose middle client sits on a closed connection is NOT caught and
converted into cleanup; the write error propagates out of the broadcast, the
client before the dead one (Ann, connection 0) has already received the
message, the client after it (Cec, connection 2) receives nothing, and the
dead client stays registered (no removal, no roster rebroadcast). -/
theorem c9_counterexample :
    (broadcast_nicklist mixedState).err = some PyErr.writeError ∧
    (broadcast_nicklist mixedState).state = mixedState ∧
    (broadcast_nicklist mixedState).sends = [(0, nicklist_msg mixedState.nicks)] ∧
    (broadcast_start_presentation mixedState).err = some PyErr.writeError ∧
    (broadcast_start_presentation mixedState).state = mixedState ∧
    (broadcast_start_presentation mixedState).sends =
      [(0, generate_start_presentation_msg mixedState)] := by
  refine ⟨?_, ?_, ?_, ?_, ?_, ?_⟩ <;> decide

lemma broadcast_start_err (s : SCState)
    (h : (sendLoop s false s.clients (generate_start_presentation_msg s)).2 ≠ none) :
    (broadcast_start_presentation s).err ≠ none ∧
    (broadcast_start_presentation s).state = s ∧
    (broadcast_start_presentation s).sends =
      (sendLoop s false s.clients (generate_start_presentation_msg s)).1 := by
  cases hr : (sendLoop s false s.clients (generate_start_presentation_msg s)).2 with
  | none => exact absurd hr h
  | some e => simp [broadcast_start_presentation, hr]

/-- Claim C9 (amended): a write that fails because the peer connection is
already closed is NOT caught at the send layer.  Splitting the registry at
the first dead client (all-open prefix `pre`, dead client `bad`, tail
`post`): the exception propagates to the caller of the broadcast, exactly
the clients of `pre` receive the message (the dead client and every client
after it in the iteration receive nothing from that call), and no cleanup
happens there (the state, registry included, is exactly as before the call;
`_presentation_started` is not even set on the failing start broadcast). -/
theorem c9_amended (s : SCState) (pre : List Client) (bad : Client)
    (post : List Client) (hsplit : s.clients = pre ++ bad :: post)
    (hpre : ∀ c ∈ pre, conn_open s c.connId = true)
    (hbad : conn_open s bad.connId = false) :
    (broadcast_nicklist s).err ≠ none ∧
    (broadcast_nicklist s).state = s ∧
    (broadcast_nicklist s).sends =
      pre.map (fun c => (c.connId, nicklist_msg s.nicks)) ∧
    (broadcast_start_presentation s).err ≠ none ∧
    (broadcast_start_presentation s).state = s ∧
    (broadcast_start_presentation s).sends =
      pre.map (fun c => (c.connId, generate_start_presentation_msg s)) := by
  have h1 := sendLoop_stops_at_bad s (nicklist_msg s.nicks) pre bad post hpre hbad
  have h2 := sendLoop_stops_at_bad s (generate_start_presentation_msg s) pre bad post
    hpre hbad
  rw [← hsplit] at h1 h2
  have h3 := broadcast_start_err s h2.2
  exact ⟨h1.2, rfl, h1.1, h3.1, h3.2.1, h3.2.2.trans h2.1⟩

theorem c9_amended_witness :
    (broadcast_nicklist mixedState).err ≠ none ∧
    (broadcast_nicklist mixedState).state = mixedState ∧
    (broadcast_nicklist mixedState).sends =
      [(⟨"Ann", 0, true⟩ : Client)].map
        (fun c => (c.connId, nicklist_msg mixedState.nicks)) ∧
    (broadcast_start_presentation mixedState).err ≠ none ∧
    (broadcast_start_presentation mixedState).state = mixedState ∧
    (broadcast_start_presentation mixedState).sends =
      [(⟨"Ann", 0, true⟩ : Client)].map
        (fun c => (c.connId, generate_start_presentation_msg mixedState)) :=
  c9_amended mixedState [⟨"Ann", 0, true⟩] ⟨"Bob", 1, false⟩ [⟨"Cec", 2, false⟩]
    (by decide) (by decide) (by decide)

/-! ### Registry invariants over reachable states -/

/-- What `ClientWSConnection.open` does to the registry fields: it appends one
client whose nick is the freshly allocated one and whose instructor flag
records whether the registry was empty at that moment. -/
lemma ws_open_state_clients (s : SCState) (nick : String) (cid : Nat) :
    (ws_open s nick cid).state.clients =
      s.clients ++ [⟨get_safe_nick s.nicks nick, cid, s.clients.length == 0⟩] ∧
    (ws_open s nick cid).state.nicks = s.nicks ++ [get_safe_nick s.nicks nick] := by
  constructor <;>
  · unfold ws_open
    dsimp only
    split <;> rfl

lemma remove_client_state_of_found (s : SCState) (nick : String) (c : Client)
    (h : s.clients.find? (fun cl => cl.nick == nick) = some c) :
    (remove_client s nick).state =
      { s with
        conns := updateConn s.conns c.connId (fun ci => { ci with closed := true })
        clients := s.clients.eraseP (fun cl => cl.nick == nick)
        nicks := s.nicks.erase nick } := by
  unfold remove_client
  rw [h]
  rfl

lemma regInv_preserved_connect (s : SCState) (nick : String) (cid : Nat)
    (h : RegInv s) : RegInv (ws_open s nick cid).state := by
  obtain ⟨h1, h2, h3⟩ := h
  obtain ⟨hc, hn⟩ := ws_open_state_clients s nick cid
  refine ⟨?_, ?_, ?_⟩
  · rw [hc, hn, List.map_append, h1]
    rfl
  · rw [hn, List.nodup_append]
    refine ⟨h2, List.nodup_singleton _, ?_⟩
    intro a ha hb
    rw [List.mem_singleton] at hb
    subst hb
    exact get_safe_nick_not_mem s.nicks nick ha
  · rw [hc, List.filter_append]
    cases hcl : s.clients with
    | nil => simp
    | cons x t =>
      rw [hcl] at h3
      have hflag : (((x :: t).length == 0) : Bool) = false := rfl
      rw [hflag]
      have hnil : List.filter (fun c => c.instructor)
          [(⟨get_safe_nick s.nicks nick, cid, false⟩ : Client)] = [] := rfl
      rw [hnil, List.append_nil]
      exact h3

lemma regInv_preserved_disconnect (s : SCState) (nick : String)
    (h : RegInv s) : RegInv (remove_client s nick).state := by
  obtain ⟨h1, h2, h3⟩ := h
  cases hf : s.clients.find? (fun cl => cl.nick == nick) with
  | none =>
    have hs : (remove_client s nick).state = s := by
      unfold remove_client
      rw [hf]
    rw [hs]
    exact ⟨h1, h2, h3⟩
  | some c =>
    rw [remove_client_state_of_found s nick c hf]
    refine ⟨?_, ?_, ?_⟩
    · show s.nicks.erase nick = _
      rw [h1, List.erase_eq_eraseP', List.eraseP_map]
      rfl
    · exact h2.erase nick
    · show ((s.clients.eraseP (fun cl => cl.nick == nick)).filter
        (fun c => c.instructor)).length ≤ 1
      have hsub := ((List.eraseP_sublist
        (l := s.clients) (p := fun cl => cl.nick == nick))).filter
        (fun c => c.instructor)
      exact le_trans hsub.length_le h3

/-- Every reachable state satisfies the registry invariant. -/
lemma reachable_regInv (s : SCState) (h : Reachable s) : RegInv s := by
  induction h with
  | init => exact ⟨rfl, List.nodup_nil, by decide⟩
  | connect s0 nick cid _ ih => exact regInv_preserved_connect s0 nick cid ih
  | disconnect s0 nick _ ih => exact regInv_preserved_disconnect s0 nick ih

/-- Claim C5: in every state reachable by registrations and unregistrations,
at most one registered client carries the Instructor role, and the client a
registration appends receives the Instructor role exactly when the registry
was empty at the moment of that registration. -/
theorem c5_single_instructor (s : SCState) (nick : String) (cid : Nat)
    (h : Reachable s) :
    (s.clients.filter (fun c => c.instructor)).length ≤ 1 ∧
    ((ws_open s nick cid).state.clients.getLast?).map Client.instructor =
      some s.clients.isEmpty := by
  refine ⟨(reachable_regInv s h).2.2, ?_⟩
  obtain ⟨hc, _⟩ := ws_open_state_clients s nick cid
  rw [hc, List.getLast?_concat]
  cases s.clients <;> rfl

theorem c5_single_instructor_witness :
    (initState.clients.filter (fun c => c.instructor)).length ≤ 1 ∧
    ((ws_open initState "Ann" 0).state.clients.getLast?).map Client.instructor =
      some initState.clients.isEmpty :=
  c5_single_instructor initState "Ann" 0 Reachable.init

/-- Claim C6, counterexample: a requested name with no word characters
sanitizes to the empty string, which is then registered like any other nick,
so the registry can contain an empty nick. -/
theorem c6_counterexample :
    "" ∈ (ws_open initState "!!!" 0).state.nicks := by decide

/-- Claim C6 (amended): in every state reachable by registrations (with
arbitrary requested names) and unregistrations, all nicks in the registry are
pairwise distinct; they are NOT necessarily non-empty (sanitizing a name with
no word characters yields the empty string, which is allocated like any
other nick). -/
theorem c6_amended (s : SCState) (h : Reachable s) :
    s.nicks.Nodup ∧ (s.clients.map Client.nick).Nodup := by
  obtain ⟨h1, h2, _⟩ := reachable_regInv s h
  refine ⟨h2, ?_⟩
  rw [← h1]
  exact h2

theorem c6_amended_witness :
    (ws_open (ws_open initState "Ann" 0).state "Bob" 1).state.nicks.Nodup ∧
    ((ws_open (ws_open initState "Ann" 0).state "Bob" 1).state.clients.map
      Client.nick).Nodup :=
  c6_amended _ (Reachable.connect _ "Bob" 1 (Reachable.connect _ "Ann" 0 Reachable.init))

end SingleRoom
